import Mathlib

/-!
# Hawk.Math geometry kernel

A shallow embedding of `3rdParty/Hawk/Math/Geometry.hpp`: planes, spheres,
axis-aligned boxes, the six-plane frustum, the matrix transform operators and
the two frustum containment tests.

The scalar type `F32` is idealised as a linearly ordered field `K`; every
definition is computable once `K` is (for instance `K = ℚ`).  The header
`Hawk/Math/Functions.hpp` (vectors, matrices, `Dot`, `Cross`, `Normalize`,
`Transpose`, `Inverse`, `Max`, `Sqrt`) is not part of the sources at hand: its
operations are modelled from their documented meaning, and `Sqrt` is passed as a
parameter `sqrt : K → K`.
-/

namespace Hawk
namespace Math

/-! ## The linear-algebra vocabulary consumed by the kernel -/

/-- Modelled from the spec: the 3-component vector type of `Functions.hpp`. -/
structure Vec3 (K : Type) where
  x : K
  y : K
  z : K

/-- Modelled from the spec: the 4-component vector type of `Functions.hpp`. -/
structure Vec4 (K : Type) where
  x : K
  y : K
  z : K
  w : K

/-- Modelled from the spec: the 4x4 matrix type of `Functions.hpp`, with indexed
element access `m i j` standing for `m(row, col)`. -/
abbrev Mat4x4 (K : Type) := Matrix (Fin 4) (Fin 4) K

section Algebra

variable {K : Type} [LinearOrderedField K]

/-- Modelled from the spec: component-wise subtraction `a - b` of `Vec3`. -/
def Vec3.sub (a b : Vec3 K) : Vec3 K := ⟨a.x - b.x, a.y - b.y, a.z - b.z⟩

/-- Modelled from the spec: `Math::Dot` on `Vec3`. -/
def Dot (a b : Vec3 K) : K := a.x * b.x + a.y * b.y + a.z * b.z

/-- Modelled from the spec: `Math::Cross` on `Vec3`. -/
def Cross (a b : Vec3 K) : Vec3 K :=
  ⟨a.y * b.z - a.z * b.y, a.z * b.x - a.x * b.z, a.x * b.y - a.y * b.x⟩

/-- Modelled from the spec: `Math::Normalize`, the vector divided by its length
`Sqrt(Dot(v, v))`; the square root of the library is the parameter `sqrt`. -/
def Normalize (sqrt : K → K) (v : Vec3 K) : Vec3 K :=
  ⟨v.x / sqrt (Dot v v), v.y / sqrt (Dot v v), v.z / sqrt (Dot v v)⟩

/-- Modelled from the spec: `Math::Max` on scalars. -/
def Max (a b : K) : K := if a < b then b else a

/-- Modelled from the spec: the `Vec4(Vec3, F32)` constructor. -/
def Vec4.ofVec3 (v : Vec3 K) (w : K) : Vec4 K := ⟨v.x, v.y, v.z, w⟩

/-- Modelled from the spec: `Math::Transpose` on `Mat4x4`. -/
def Transpose (m : Mat4x4 K) : Mat4x4 K := fun i j => m j i

/-- Modelled from the spec: `Math::Inverse` on `Mat4x4`, the adjugate divided by
the determinant. -/
def Inverse (m : Mat4x4 K) : Mat4x4 K := fun i j => (Matrix.det m)⁻¹ * Matrix.adjugate m i j

/-- Modelled from the spec: the matrix-vector product `Mat4x4 * Vec4`, the
vector taken as a column. -/
def Mat4x4.mulVec4 (m : Mat4x4 K) (v : Vec4 K) : Vec4 K :=
  ⟨m 0 0 * v.x + m 0 1 * v.y + m 0 2 * v.z + m 0 3 * v.w,
   m 1 0 * v.x + m 1 1 * v.y + m 1 2 * v.z + m 1 3 * v.w,
   m 2 0 * v.x + m 2 1 * v.y + m 2 2 * v.z + m 2 3 * v.w,
   m 3 0 * v.x + m 3 1 * v.y + m 3 2 * v.z + m 3 3 * v.w⟩

end Algebra

/-! ## Value types -/

/-- The class `Plane`: the points `p` with `Dot(normal, p) + offset = 0`. -/
structure Plane (K : Type) where
  m_Normal : Vec3 K
  m_Offset : K

/-- The class `Sphere`. -/
structure Sphere (K : Type) where
  m_Center : Vec3 K
  m_Radius : K

/-- The class `Box`. -/
structure Box (K : Type) where
  m_MinExtends : Vec3 K
  m_MaxExtends : Vec3 K

/-- The class `Ray`. -/
structure Ray (K : Type) where
  m_Position : Vec3 K
  m_Direction : Vec3 K

/-- The enumeration `Frustum::Section`. -/
inductive Section where
  | Near
  | Far
  | Left
  | Right
  | Top
  | Bottom
  deriving DecidableEq, Repr

/-- The conversion `static_cast<uint8_t>(section)`. -/
def Section.toIndex : Section → Fin 6
  | .Near => 0
  | .Far => 1
  | .Left => 2
  | .Right => 3
  | .Top => 4
  | .Bottom => 5

/-- The conversion `static_cast<Frustum::Section>(index)` for `index < 6`. -/
def Section.ofIndex : Fin 6 → Section
  | 0 => .Near
  | 1 => .Far
  | 2 => .Left
  | 3 => .Right
  | 4 => .Top
  | 5 => .Bottom

/-- The class `Frustum`: the array `m_Planes[6]`. -/
structure Frustum (K : Type) where
  m_Planes : Fin 6 → Plane K

section Kernel

variable {K : Type} [LinearOrderedField K]

/-! ### Plane -/

/-- The default constructor `Plane()`: normal `(0, 1, 0)`, offset `0`. -/
def Plane.default : Plane K := ⟨⟨0, 1, 0⟩, 0⟩

/-- The constructor `Plane(Vec4 const& v)`. -/
def Plane.ofVec4 (v : Vec4 K) : Plane K := ⟨⟨v.x, v.y, v.z⟩, v.w⟩

/-- The constructor `Plane(F32 a, F32 b, F32 c, F32 d)`. -/
def Plane.ofCoeffs (a b c d : K) : Plane K := Plane.mk (Vec3.mk a b c) d

/-- The constructor `Plane(Vec3 a, Vec3 b, Vec3 c)` from three points. -/
def Plane.ofPoints (sqrt : K → K) (a b c : Vec3 K) : Plane K :=
  let m_Normal := Normalize sqrt (Cross (b.sub a) (c.sub a))
  let m_Offset := -Dot m_Normal a
  ⟨m_Normal, m_Offset⟩

/-- The accessor `Plane::Normal`. -/
def Plane.Normal (p : Plane K) : Vec3 K := p.m_Normal

/-- The accessor `Plane::Offset`. -/
def Plane.Offset (p : Plane K) : K := p.m_Offset

/-- The mutator `Plane::SetNormal`. -/
def Plane.SetNormal (p : Plane K) (normal : Vec3 K) : Plane K := { p with m_Normal := normal }

/-- The mutator `Plane::SetOffset`. -/
def Plane.SetOffset (p : Plane K) (offset : K) : Plane K := { p with m_Offset := offset }

/-! ### Sphere, Box, Ray -/

/-- The default constructor `Sphere()`: center at the origin, radius `1`. -/
def Sphere.default : Sphere K := ⟨⟨0, 0, 0⟩, 1⟩

/-- The constructor `Sphere(F32 x, F32 y, F32 z, F32 radius)`. -/
def Sphere.ofCoords (x y z radius : K) : Sphere K := ⟨⟨x, y, z⟩, radius⟩

/-- The accessor `Sphere::Center`. -/
def Sphere.Center (s : Sphere K) : Vec3 K := s.m_Center

/-- The accessor `Sphere::Radius`. -/
def Sphere.Radius (s : Sphere K) : K := s.m_Radius

/-- The accessor `Box::MinExtends`. -/
def Box.MinExtends (b : Box K) : Vec3 K := b.m_MinExtends

/-- The accessor `Box::MaxExtends`. -/
def Box.MaxExtends (b : Box K) : Vec3 K := b.m_MaxExtends

/-- The default constructor `Ray()`. -/
def Ray.default : Ray K := ⟨⟨0, 0, 0⟩, ⟨0, 1, 0⟩⟩

/-! ### Frustum -/

/-- The default constructor `Frustum()`: six default planes. -/
def Frustum.default : Frustum K := ⟨fun _ => Plane.default⟩

/-- The mutator `Frustum::SetPlane`. -/
def Frustum.SetPlane (f : Frustum K) (s : Section) (plane : Hawk.Math.Plane K) : Frustum K :=
  ⟨Function.update f.m_Planes s.toIndex plane⟩

/-- The accessor `Frustum::Plane`. -/
def Frustum.Plane (f : Frustum K) (s : Section) : Hawk.Math.Plane K :=
  f.m_Planes s.toIndex

/-- The private method `Frustum::GenerateFromPerspective`, acting on the
receiver `f`. -/
def Frustum.GenerateFromPerspective (sqrt : K → K) (f : Frustum K)
    (hTan vTan zNear zFar : K) : Frustum K :=
  let nHx := 1 / sqrt (1 + hTan * hTan)
  let nHz := -nHx * hTan
  let nVy := 1 / sqrt (1 + vTan * vTan)
  let nVz := -nVy * vTan
  let f := f.SetPlane .Near (Plane.ofCoeffs 0 0 (-1) (-zNear))
  let f := f.SetPlane .Far (Plane.ofCoeffs 0 0 1 zFar)
  let f := f.SetPlane .Left (Plane.ofCoeffs nHx 0 nHz 0)
  let f := f.SetPlane .Right (Plane.ofCoeffs (-nHx) 0 nHz 0)
  let f := f.SetPlane .Top (Plane.ofCoeffs 0 (-nVy) nVz 0)
  f.SetPlane .Bottom (Plane.ofCoeffs 0 nVy nVz 0)

/-- The private method `Frustum::GenerateFromOrthographic`, acting on the
receiver `f`. -/
def Frustum.GenerateFromOrthographic (f : Frustum K)
    (left right top bottom front back : K) : Frustum K :=
  let f := f.SetPlane .Near (Plane.ofCoeffs 0 0 (-1) (-front))
  let f := f.SetPlane .Far (Plane.ofCoeffs 0 0 1 back)
  let f := f.SetPlane .Left (Plane.ofCoeffs 1 0 0 (-left))
  let f := f.SetPlane .Right (Plane.ofCoeffs (-1) 0 0 right)
  let f := f.SetPlane .Top (Plane.ofCoeffs 0 (-1) 0 bottom)
  f.SetPlane .Bottom (Plane.ofCoeffs 0 1 0 (-top))

/-- The constructor `Frustum(Mat4x4 const& proj)`. -/
def Frustum.ofMat4x4 (sqrt : K → K) (proj : Mat4x4 K) : Frustum K :=
  let rcpXX := 1 / proj 0 0
  let rcpYY := 1 / proj 1 1
  let rcpZZ := 1 / proj 2 2
  if proj 3 0 = 0 ∧ proj 3 1 = 0 ∧ proj 3 2 = 0 ∧ proj 3 3 = 1 then
    let left := (-1 - proj 0 3) * rcpXX
    let right := (1 - proj 0 3) * rcpXX
    let top := (1 - proj 1 3) * rcpYY
    let bottom := (-1 - proj 1 3) * rcpYY
    let front := (0 - proj 2 3) * rcpZZ
    let back := (1 - proj 2 3) * rcpZZ
    if front < back then
      Frustum.default.GenerateFromOrthographic left right top bottom front back
    else
      Frustum.default.GenerateFromOrthographic left right top bottom back front
  else
    if rcpZZ > 0 then
      let farClip := proj 2 3 * rcpZZ
      let nearClip := farClip / (rcpZZ + 1)
      Frustum.default.GenerateFromPerspective sqrt rcpXX rcpXX farClip nearClip
    else
      let nearClip := proj 2 3 * rcpZZ
      let farClip := nearClip / (rcpZZ + 1)
      Frustum.default.GenerateFromPerspective sqrt rcpXX rcpXX farClip nearClip

/-! ### Intersection tests -/

/-- The loop of `Intersects(Frustum, Sphere)` over the remaining indices. -/
def IntersectsSphere.loop (lhs : Frustum K) (rhs : Sphere K) : List (Fin 6) → Bool
  | [] => true
  | index :: rest =>
    let e := lhs.Plane (Section.ofIndex index)
    if Dot e.Normal rhs.Center + e.Offset ≤ -rhs.Radius then false
    else IntersectsSphere.loop lhs rhs rest

/-- The overload `Intersects(Frustum const&, Sphere const&)`. -/
def IntersectsSphere (lhs : Frustum K) (rhs : Sphere K) : Bool :=
  IntersectsSphere.loop lhs rhs [0, 1, 2, 3, 4, 5]

/-- The value `d` that `Intersects(Frustum, Box)` computes for the plane `e`. -/
def IntersectsBox.d (e : Plane K) (rhs : Box K) : K :=
  Max (rhs.MinExtends.x * e.Normal.x) (rhs.MaxExtends.x * e.Normal.x) +
  Max (rhs.MinExtends.y * e.Normal.y) (rhs.MaxExtends.y * e.Normal.y) +
  Max (rhs.MinExtends.z * e.Normal.z) (rhs.MaxExtends.z * e.Normal.z) + e.Offset

/-- The loop of `Intersects(Frustum, Box)` over the remaining indices. -/
def IntersectsBox.loop (lhs : Frustum K) (rhs : Box K) : List (Fin 6) → Bool
  | [] => true
  | index :: rest =>
    let e := lhs.Plane (Section.ofIndex index)
    let d := IntersectsBox.d e rhs
    if d < 0 then false
    else IntersectsBox.loop lhs rhs rest

/-- The overload `Intersects(Frustum const&, Box const&)`. -/
def IntersectsBox (lhs : Frustum K) (rhs : Box K) : Bool :=
  IntersectsBox.loop lhs rhs [0, 1, 2, 3, 4, 5]

/-! ### Transform operators -/

/-- The operator `Mat4x4 * Plane`. -/
def mulPlane (lhs : Mat4x4 K) (rhs : Plane K) : Plane K :=
  Plane.ofVec4 ((Transpose (Inverse lhs)).mulVec4 (Vec4.ofVec3 rhs.Normal rhs.Offset))

/-- The operator `Mat4x4 * Ray`. -/
def mulRay (_lhs : Mat4x4 K) (_rhs : Ray K) : Ray K := Ray.default

/-- The operator `Mat4x4 * Sphere`. -/
def mulSphere (lhs : Mat4x4 K) (rhs : Sphere K) : Sphere K :=
  let center := lhs.mulVec4 (Vec4.ofVec3 rhs.Center 1)
  Sphere.ofCoords center.x center.y center.z rhs.Radius

/-- The operator `Mat4x4 * Box`. -/
def mulBox (lhs : Mat4x4 K) (rhs : Box K) : Box K :=
  let min := lhs.mulVec4 (Vec4.ofVec3 rhs.MinExtends 1)
  let max := lhs.mulVec4 (Vec4.ofVec3 rhs.MaxExtends 1)
  ⟨⟨min.x, min.y, min.z⟩, ⟨max.x, max.y, max.z⟩⟩

/-- The loop of `Mat4x4 * Frustum` over the remaining indices. -/
def mulFrustum.loop (trans : Mat4x4 K) (rhs : Frustum K) : List (Fin 6) → Frustum K → Frustum K
  | [], result => result
  | index :: rest, result =>
    let e := rhs.Plane (Section.ofIndex index)
    mulFrustum.loop trans rhs rest
      (result.SetPlane (Section.ofIndex index)
        (Plane.ofVec4 (trans.mulVec4 (Vec4.ofVec3 e.Normal e.Offset))))

/-- The operator `Mat4x4 * Frustum`. -/
def mulFrustum (lhs : Mat4x4 K) (rhs : Frustum K) : Frustum K :=
  let result : Frustum K := Frustum.default
  let trans := Transpose (Inverse lhs)
  mulFrustum.loop trans rhs [0, 1, 2, 3, 4, 5] result

end Kernel

/-! ## Inputs of the worked examples -/

section Inputs

/-- The projection matrix of the worked examples: the symmetric right-handed
perspective matrix with 90 degree field of view, near `1/10` and far `100`. -/
def standardPerspective : Mat4x4 ℚ :=
  !![1, 0, 0, 0;
     0, 1, 0, 0;
     0, 0, 100 / (1 / 10 - 100), 1 / 10 * 100 / (1 / 10 - 100);
     0, 0, -1, 0]

/-- A right-handed perspective matrix whose two fields of view differ:
`proj(0,0) = 4/3` and `proj(1,1) = 3/4`, near `1/10` and far `100`. -/
def anisotropicPerspective : Mat4x4 ℚ :=
  !![4 / 3, 0, 0, 0;
     0, 3 / 4, 0, 0;
     0, 0, 100 / (1 / 10 - 100), 1 / 10 * 100 / (1 / 10 - 100);
     0, 0, -1, 0]

/-- An orthographic projection matrix: the identity, whose visible volume is
`-1 ≤ x ≤ 1`, `-1 ≤ y ≤ 1`, `0 ≤ z ≤ 1`. -/
def unitOrthographic : Mat4x4 ℚ :=
  !![1, 0, 0, 0;
     0, 1, 0, 0;
     0, 0, 1, 0;
     0, 0, 0, 1]

/-- An invertible affine matrix: scaling by `(2, 3, 4)` followed by the
translation by `(1, 2, 3)`. -/
def translateScale : Mat4x4 ℚ :=
  !![2, 0, 0, 1;
     0, 3, 0, 2;
     0, 0, 4, 3;
     0, 0, 0, 1]

/-- A right-handed orthographic projection matrix with near `1` and far `2`:
its visible volume is `-1 ≤ x ≤ 1`, `-1 ≤ y ≤ 1`, `-2 ≤ z ≤ -1`. -/
def rightHandedOrthographic : Mat4x4 ℚ :=
  !![1, 0, 0, 0;
     0, 1, 0, 0;
     0, 0, -1, -1;
     0, 0, 0, 1]

/-- The unit box centered at the origin. -/
def unitBox : Box ℚ := ⟨⟨-1 / 2, -1 / 2, -1 / 2⟩, ⟨1 / 2, 1 / 2, 1 / 2⟩⟩

end Inputs

/-! ## Properties -/

section Lemmas

variable {K : Type} [LinearOrderedField K]

theorem Section.toIndex_ofIndex (i : Fin 6) : (Section.ofIndex i).toIndex = i := by
  fin_cases i <;> rfl

theorem Section.ofIndex_toIndex (s : Section) : Section.ofIndex s.toIndex = s := by
  cases s <;> rfl

theorem Section.exists_iff_index (p : Section → Prop) :
    (∃ s, p s) ↔ ∃ i ∈ ([0, 1, 2, 3, 4, 5] : List (Fin 6)), p (Section.ofIndex i) := by
  constructor
  · rintro ⟨s, hs⟩
    refine ⟨s.toIndex, ?_, ?_⟩
    · cases s <;> simp [Section.toIndex]
    · rwa [Section.ofIndex_toIndex]
  · rintro ⟨i, _, hi⟩
    exact ⟨_, hi⟩

theorem Max_eq_max (a b : K) : Max a b = max a b := by
  unfold Max
  split_ifs with h
  · exact (max_eq_right h.le).symm
  · exact (max_eq_left (not_lt.mp h)).symm

theorem IntersectsSphere_loop_eq_false_iff (lhs : Frustum K) (rhs : Sphere K)
    (l : List (Fin 6)) :
    IntersectsSphere.loop lhs rhs l = false ↔
      ∃ i ∈ l, Dot (lhs.Plane (Section.ofIndex i)).Normal rhs.Center
        + (lhs.Plane (Section.ofIndex i)).Offset ≤ -rhs.Radius := by
  induction l with
  | nil => simp [IntersectsSphere.loop]
  | cons i rest ih =>
    simp only [IntersectsSphere.loop, List.mem_cons, exists_eq_or_imp]
    split_ifs with h
    · simp [h]
    · simp [h, ih]

theorem IntersectsBox_loop_eq_false_iff (lhs : Frustum K) (rhs : Box K)
    (l : List (Fin 6)) :
    IntersectsBox.loop lhs rhs l = false ↔
      ∃ i ∈ l, IntersectsBox.d (lhs.Plane (Section.ofIndex i)) rhs < 0 := by
  induction l with
  | nil => simp [IntersectsBox.loop]
  | cons i rest ih =>
    simp only [IntersectsBox.loop, List.mem_cons, exists_eq_or_imp]
    split_ifs with h
    · simp [h]
    · simp [h, ih]

theorem Frustum.Plane_SetPlane {K : Type} (f : Frustum K) (s t : Section)
    (p : Hawk.Math.Plane K) :
    (f.SetPlane s p).Plane t = if t = s then p else f.Plane t := by
  unfold Frustum.SetPlane Frustum.Plane
  cases s <;> cases t <;> simp [Function.update, Section.toIndex]

theorem Frustum.Plane_GenerateFromPerspective (sqrt : K → K)
    (f : Frustum K) (hTan vTan zNear zFar : K) (s : Section) :
    (f.GenerateFromPerspective sqrt hTan vTan zNear zFar).Plane s =
      match s with
      | .Near => Plane.ofCoeffs 0 0 (-1) (-zNear)
      | .Far => Plane.ofCoeffs 0 0 1 zFar
      | .Left => Plane.ofCoeffs (1 / sqrt (1 + hTan * hTan)) 0
          (-(1 / sqrt (1 + hTan * hTan)) * hTan) 0
      | .Right => Plane.ofCoeffs (-(1 / sqrt (1 + hTan * hTan))) 0
          (-(1 / sqrt (1 + hTan * hTan)) * hTan) 0
      | .Top => Plane.ofCoeffs 0 (-(1 / sqrt (1 + vTan * vTan)))
          (-(1 / sqrt (1 + vTan * vTan)) * vTan) 0
      | .Bottom => Plane.ofCoeffs 0 (1 / sqrt (1 + vTan * vTan))
          (-(1 / sqrt (1 + vTan * vTan)) * vTan) 0 := by
  cases s <;> simp [Frustum.GenerateFromPerspective, Frustum.Plane_SetPlane]

theorem Frustum.Plane_GenerateFromOrthographic
    (f : Frustum K) (left right top bottom front back : K) (s : Section) :
    (f.GenerateFromOrthographic left right top bottom front back).Plane s =
      match s with
      | .Near => Plane.ofCoeffs 0 0 (-1) (-front)
      | .Far => Plane.ofCoeffs 0 0 1 back
      | .Left => Plane.ofCoeffs 1 0 0 (-left)
      | .Right => Plane.ofCoeffs (-1) 0 0 right
      | .Top => Plane.ofCoeffs 0 (-1) 0 bottom
      | .Bottom => Plane.ofCoeffs 0 1 0 (-top) := by
  cases s <;> simp [Frustum.GenerateFromOrthographic, Frustum.Plane_SetPlane]

theorem ratSqrt_25_16 : Rat.sqrt (25 / 16) = 5 / 4 := by
  rw [show (25 / 16 : ℚ) = (5 / 4) * (5 / 4) by norm_num, Rat.sqrt_eq]
  norm_num [abs_of_pos]

theorem ratSqrt_25_9 : Rat.sqrt (25 / 9) = 5 / 3 := by
  rw [show (25 / 9 : ℚ) = (5 / 3) * (5 / 3) by norm_num, Rat.sqrt_eq]
  norm_num [abs_of_pos]

theorem unitOrthographic_entries :
    unitOrthographic 0 0 = 1 ∧ unitOrthographic 0 3 = 0 ∧
    unitOrthographic 1 1 = 1 ∧ unitOrthographic 1 3 = 0 ∧
    unitOrthographic 2 2 = 1 ∧ unitOrthographic 2 3 = 0 ∧
    unitOrthographic 3 0 = 0 ∧ unitOrthographic 3 1 = 0 ∧
    unitOrthographic 3 2 = 0 ∧ unitOrthographic 3 3 = 1 := by
  decide

theorem translateScale_det : Matrix.det translateScale = 24 := by
  simp [translateScale, Matrix.det_succ_row_zero, Fin.sum_univ_succ]
  norm_num

theorem Vec3.eq_zero_of_Dot_self_eq_zero (v : Vec3 K) (h : Dot v v = 0) : v = ⟨0, 0, 0⟩ := by
  obtain ⟨x, y, z⟩ := v
  simp only [Dot] at h
  have hx : x = 0 := by nlinarith [mul_self_nonneg x, mul_self_nonneg y, mul_self_nonneg z]
  have hy : y = 0 := by nlinarith [mul_self_nonneg x, mul_self_nonneg y, mul_self_nonneg z]
  have hz : z = 0 := by nlinarith [mul_self_nonneg x, mul_self_nonneg y, mul_self_nonneg z]
  rw [hx, hy, hz]

theorem Dot_Normalize_left (sqrt : K → K) (v w : Vec3 K) :
    Dot (Normalize sqrt v) w = Dot v w / sqrt (Dot v v) := by
  simp only [Dot, Normalize]
  ring

theorem Dot_Normalize_right (sqrt : K → K) (v w : Vec3 K) :
    Dot w (Normalize sqrt v) = Dot w v / sqrt (Dot v v) := by
  simp only [Dot, Normalize]
  ring

theorem Dot_Cross_left (u v : Vec3 K) : Dot (Cross u v) u = 0 := by
  simp only [Dot, Cross]
  ring

theorem Dot_Cross_right (u v : Vec3 K) : Dot (Cross u v) v = 0 := by
  simp only [Dot, Cross]
  ring

theorem Dot_sub_right (v b a : Vec3 K) : Dot v (b.sub a) = Dot v b - Dot v a := by
  simp only [Dot, Vec3.sub]
  ring

/-- The 4-component dot product of the coefficients of `M * P` with the
homogeneous image `M * (p, 1)` is the value of the plane `P` at `p`. -/
theorem mulPlane_mulVec4_eq (M : Mat4x4 K) (P : Plane K) (p : Vec3 K)
    (hM : Matrix.det M ≠ 0) :
    (mulPlane M P).Normal.x * (M.mulVec4 (Vec4.ofVec3 p 1)).x
      + (mulPlane M P).Normal.y * (M.mulVec4 (Vec4.ofVec3 p 1)).y
      + (mulPlane M P).Normal.z * (M.mulVec4 (Vec4.ofVec3 p 1)).z
      + (mulPlane M P).Offset * (M.mulVec4 (Vec4.ofVec3 p 1)).w
    = Dot P.Normal p + P.Offset := by
  have h := Matrix.adjugate_mul M
  have e : ∀ j k : Fin 4, Matrix.adjugate M j 0 * M 0 k + Matrix.adjugate M j 1 * M 1 k
      + Matrix.adjugate M j 2 * M 2 k + Matrix.adjugate M j 3 * M 3 k
      = if j = k then Matrix.det M else 0 := by
    intro j k
    have := congrFun (congrFun h j) k
    simpa [Matrix.mul_apply, Fin.sum_univ_four, Matrix.smul_apply, Matrix.one_apply] using this
  have e00 := e 0 0; have e01 := e 0 1; have e02 := e 0 2; have e03 := e 0 3
  have e10 := e 1 0; have e11 := e 1 1; have e12 := e 1 2; have e13 := e 1 3
  have e20 := e 2 0; have e21 := e 2 1; have e22 := e 2 2; have e23 := e 2 3
  have e30 := e 3 0; have e31 := e 3 1; have e32 := e 3 2; have e33 := e 3 3
  simp only [Fin.isValue, if_true, Fin.reduceEq, if_false]
    at e00 e01 e02 e03 e10 e11 e12 e13 e20 e21 e22 e23 e30 e31 e32 e33
  obtain ⟨⟨nx, ny, nz⟩, o⟩ := P
  obtain ⟨x, y, z⟩ := p
  simp only [mulPlane, Plane.ofVec4, Plane.Normal, Plane.Offset, Mat4x4.mulVec4, Vec4.ofVec3,
    Transpose, Inverse, Dot]
  have hd : (Matrix.det M)⁻¹ * Matrix.det M = 1 := inv_mul_cancel₀ hM
  linear_combination ((Matrix.det M)⁻¹ * nx * x) * e00 + ((Matrix.det M)⁻¹ * nx * y) * e01
    + ((Matrix.det M)⁻¹ * nx * z) * e02 + ((Matrix.det M)⁻¹ * nx) * e03
    + ((Matrix.det M)⁻¹ * ny * x) * e10 + ((Matrix.det M)⁻¹ * ny * y) * e11
    + ((Matrix.det M)⁻¹ * ny * z) * e12 + ((Matrix.det M)⁻¹ * ny) * e13
    + ((Matrix.det M)⁻¹ * nz * x) * e20 + ((Matrix.det M)⁻¹ * nz * y) * e21
    + ((Matrix.det M)⁻¹ * nz * z) * e22 + ((Matrix.det M)⁻¹ * nz) * e23
    + ((Matrix.det M)⁻¹ * o * x) * e30 + ((Matrix.det M)⁻¹ * o * y) * e31
    + ((Matrix.det M)⁻¹ * o * z) * e32 + ((Matrix.det M)⁻¹ * o) * e33
    + (nx * x + ny * y + nz * z + o) * hd

theorem Inverse_one : Inverse (1 : Mat4x4 K) = 1 := by
  funext i j
  simp [Inverse]

theorem Transpose_one : Transpose (1 : Mat4x4 K) = 1 := by
  funext i j
  simp [Transpose, Matrix.one_apply, eq_comm]

theorem Mat4x4.one_mulVec4 (v : Vec4 K) : (1 : Mat4x4 K).mulVec4 v = v := by
  simp [Mat4x4.mulVec4, Matrix.one_apply]

theorem mulFrustum_Plane_eq (M : Mat4x4 K) (F : Frustum K) (s : Section) :
    (mulFrustum M F).Plane s = mulPlane M (F.Plane s) := by
  cases s <;>
  simp [mulFrustum, mulFrustum.loop, Frustum.Plane_SetPlane, Section.ofIndex, mulPlane]

theorem mulPlane_one (P : Plane K) : mulPlane 1 P = P := by
  simp [mulPlane, Inverse_one, Transpose_one, Mat4x4.one_mulVec4, Plane.ofVec4, Vec4.ofVec3,
    Plane.Normal, Plane.Offset]

/-- The real square root squares back to `Dot(v, v)` at every vector, so the
assumption made on `sqrt` for the three-point constructor holds for it. -/
theorem Real_sqrt_mul_self_Dot (v : Vec3 ℝ) :
    Real.sqrt (Dot v v) * Real.sqrt (Dot v v) = Dot v v := by
  apply Real.mul_self_sqrt
  simp only [Dot]
  nlinarith [mul_self_nonneg v.x, mul_self_nonneg v.y, mul_self_nonneg v.z]

/-- The perspective branch of the constructor, unfolded: `rcpXX` is handed to
both tangents, and the clip distances reach `GenerateFromPerspective` with the
far one in the place of `zNear`. -/
theorem ofMat4x4_perspective_eq (sqrt : K → K) (proj : Mat4x4 K)
    (hrow : ¬ (proj 3 0 = 0 ∧ proj 3 1 = 0 ∧ proj 3 2 = 0 ∧ proj 3 3 = 1)) :
    Frustum.ofMat4x4 sqrt proj =
      if 1 / proj 2 2 > 0 then
        Frustum.default.GenerateFromPerspective sqrt (1 / proj 0 0) (1 / proj 0 0)
          (proj 2 3 * (1 / proj 2 2)) (proj 2 3 * (1 / proj 2 2) / (1 / proj 2 2 + 1))
      else
        Frustum.default.GenerateFromPerspective sqrt (1 / proj 0 0) (1 / proj 0 0)
          (proj 2 3 * (1 / proj 2 2) / (1 / proj 2 2 + 1)) (proj 2 3 * (1 / proj 2 2)) := by
  simp only [Frustum.ofMat4x4, if_neg hrow]

/-- With the clip distances passed in the order of the parameters
`(zNear, zFar)`, the unit sphere at the origin passes the test. -/
theorem IntersectsSphere_GenerateFromPerspective_in_order (sqrt : ℚ → ℚ) :
    IntersectsSphere (Frustum.default.GenerateFromPerspective sqrt 1 1 (1 / 10) 100)
      (Sphere.ofCoords 0 0 0 1) = true := by
  norm_num [IntersectsSphere, IntersectsSphere.loop, Frustum.Plane_GenerateFromPerspective,
    Section.ofIndex, Plane.ofCoeffs, Plane.Normal, Plane.Offset, Sphere.ofCoords,
    Sphere.Center, Sphere.Radius, Dot]

theorem mul_le_Max_of_mem (a b p n : K) (h1 : a ≤ p) (h2 : p ≤ b) :
    n * p ≤ Max (a * n) (b * n) := by
  rw [Max_eq_max]
  rcases le_total 0 n with hn | hn
  · exact le_max_of_le_right (by nlinarith)
  · exact le_max_of_le_left (by nlinarith)

theorem Max_attained (a b n : K) : ∃ c, (c = a ∨ c = b) ∧ n * c = Max (a * n) (b * n) := by
  unfold Max
  split_ifs with h
  · exact ⟨b, Or.inr rfl, mul_comm n b⟩
  · exact ⟨a, Or.inl rfl, mul_comm n a⟩

theorem IntersectsBox_d_upper_bound (e : Plane K) (rhs : Box K) (p : Vec3 K)
    (hx : rhs.MinExtends.x ≤ p.x ∧ p.x ≤ rhs.MaxExtends.x)
    (hy : rhs.MinExtends.y ≤ p.y ∧ p.y ≤ rhs.MaxExtends.y)
    (hz : rhs.MinExtends.z ≤ p.z ∧ p.z ≤ rhs.MaxExtends.z) :
    Dot e.Normal p + e.Offset ≤ IntersectsBox.d e rhs := by
  have h1 := mul_le_Max_of_mem _ _ _ e.Normal.x hx.1 hx.2
  have h2 := mul_le_Max_of_mem _ _ _ e.Normal.y hy.1 hy.2
  have h3 := mul_le_Max_of_mem _ _ _ e.Normal.z hz.1 hz.2
  simp only [Dot, IntersectsBox.d]
  linarith

theorem IntersectsBox_d_attained (e : Plane K) (rhs : Box K) :
    ∃ c : Vec3 K, (c.x = rhs.MinExtends.x ∨ c.x = rhs.MaxExtends.x) ∧
      (c.y = rhs.MinExtends.y ∨ c.y = rhs.MaxExtends.y) ∧
      (c.z = rhs.MinExtends.z ∨ c.z = rhs.MaxExtends.z) ∧
      Dot e.Normal c + e.Offset = IntersectsBox.d e rhs := by
  obtain ⟨cx, hcx, ex⟩ := Max_attained rhs.MinExtends.x rhs.MaxExtends.x e.Normal.x
  obtain ⟨cy, hcy, ey⟩ := Max_attained rhs.MinExtends.y rhs.MaxExtends.y e.Normal.y
  obtain ⟨cz, hcz, ez⟩ := Max_attained rhs.MinExtends.z rhs.MaxExtends.z e.Normal.z
  refine ⟨⟨cx, cy, cz⟩, hcx, hcy, hcz, ?_⟩
  simp only [Dot, IntersectsBox.d]
  rw [ex, ey, ez]

theorem IntersectsBox_eq_false_iff_exists (lhs : Frustum K) (rhs : Box K) :
    IntersectsBox lhs rhs = false ↔ ∃ s : Section, IntersectsBox.d (lhs.Plane s) rhs < 0 := by
  unfold IntersectsBox
  rw [IntersectsBox_loop_eq_false_iff,
    ← Section.exists_iff_index (fun s => IntersectsBox.d (lhs.Plane s) rhs < 0)]

theorem IntersectsSphere_eq_false_iff_exists (lhs : Frustum K) (rhs : Sphere K) :
    IntersectsSphere lhs rhs = false ↔
      ∃ s : Section, Dot (lhs.Plane s).Normal rhs.Center + (lhs.Plane s).Offset
        ≤ -rhs.Radius := by
  unfold IntersectsSphere
  rw [IntersectsSphere_loop_eq_false_iff]
  exact (Section.exists_iff_index (fun s =>
    Dot (lhs.Plane s).Normal rhs.Center + (lhs.Plane s).Offset ≤ -rhs.Radius)).symm

theorem Dot_mul_self_le (n d : Vec3 K) : Dot n d * Dot n d ≤ Dot n n * Dot d d := by
  simp only [Dot]
  nlinarith [sq_nonneg (n.x * d.y - n.y * d.x), sq_nonneg (n.y * d.z - n.z * d.y),
    sq_nonneg (n.z * d.x - n.x * d.z)]

theorem Dot_le_of_unit_of_ball (n d : Vec3 K) (r : K) (hn : Dot n n = 1) (hr : 0 ≤ r)
    (hd : Dot d d ≤ r * r) : Dot n d ≤ r := by
  by_contra hlt
  push_neg at hlt
  have h1 := mul_self_lt_mul_self hr hlt
  have h2 := Dot_mul_self_le n d
  rw [hn, one_mul] at h2
  linarith

theorem unit_of_sqrt_sq (s t : K) (hs : s * s = 1 + t * t) :
    1 / s * (1 / s) + -(1 / s) * t * (-(1 / s) * t) = 1 := by
  have hpos : 0 < 1 + t * t := by nlinarith [mul_self_nonneg t]
  have hne : s ≠ 0 := by
    intro h0
    rw [h0, mul_zero] at hs
    linarith
  field_simp
  linear_combination -hs

/-- For an invertible affine matrix the plane `M * P` takes at the center of
`M * S` the value that `P` takes at the center of `S`. -/
theorem mulPlane_mulSphere_value (M : Mat4x4 K) (P : Plane K) (S : Sphere K)
    (hM : Matrix.det M ≠ 0)
    (haff : M 3 0 = 0 ∧ M 3 1 = 0 ∧ M 3 2 = 0 ∧ M 3 3 = 1) :
    Dot (mulPlane M P).Normal (mulSphere M S).Center + (mulPlane M P).Offset
      = Dot P.Normal S.Center + P.Offset := by
  have key := mulPlane_mulVec4_eq M P S.Center hM
  obtain ⟨h0, h1, h2, h3⟩ := haff
  have hw : (M.mulVec4 (Vec4.ofVec3 S.Center 1)).w = 1 := by
    simp [Mat4x4.mulVec4, Vec4.ofVec3, h0, h1, h2, h3]
  rw [hw, mul_one] at key
  rw [← key]
  simp [mulSphere, Sphere.ofCoords, Sphere.Center, Dot]

theorem rightHandedOrthographic_entries :
    rightHandedOrthographic 0 0 = 1 ∧ rightHandedOrthographic 0 3 = 0 ∧
    rightHandedOrthographic 1 1 = 1 ∧ rightHandedOrthographic 1 3 = 0 ∧
    rightHandedOrthographic 2 2 = -1 ∧ rightHandedOrthographic 2 3 = -1 ∧
    rightHandedOrthographic 3 0 = 0 ∧ rightHandedOrthographic 3 1 = 0 ∧
    rightHandedOrthographic 3 2 = 0 ∧ rightHandedOrthographic 3 3 = 1 := by
  decide

/-- On a right-handed orthographic matrix with near `1` and far `2` the
constructor stores Near `(0, 0, -1, 2)` and Far `(0, 0, 1, -1)`, the slab
`1 ≤ z ≤ 2`, the mirror image of the visible depths `-2 ≤ z ≤ -1`: the visible
point `(0, 0, -3/2)` has the value `-5/2` on the Far plane. -/
theorem ofMat4x4_rightHandedOrthographic_mirrored :
    (0 ≤ rightHandedOrthographic 2 2 * (-3 / 2) + rightHandedOrthographic 2 3 ∧
      rightHandedOrthographic 2 2 * (-3 / 2) + rightHandedOrthographic 2 3 ≤ 1) ∧
    (Frustum.ofMat4x4 Rat.sqrt rightHandedOrthographic).Plane .Near
      = Plane.ofCoeffs 0 0 (-1) 2 ∧
    (Frustum.ofMat4x4 Rat.sqrt rightHandedOrthographic).Plane .Far
      = Plane.ofCoeffs 0 0 1 (-1) ∧
    Dot ((Frustum.ofMat4x4 Rat.sqrt rightHandedOrthographic).Plane .Far).Normal
        ⟨0, 0, -3 / 2⟩
      + ((Frustum.ofMat4x4 Rat.sqrt rightHandedOrthographic).Plane .Far).Offset = -5 / 2 := by
  obtain ⟨h00, h03, h11, h13, h22, h23, h30, h31, h32, h33⟩ := rightHandedOrthographic_entries
  refine ⟨?_, ?_, ?_, ?_⟩ <;>
  norm_num [Frustum.ofMat4x4, h00, h03, h11, h13, h22, h23, h30, h31, h32, h33,
    Frustum.Plane_GenerateFromOrthographic, Plane.ofCoeffs, Plane.Normal, Plane.Offset, Dot]

end Lemmas

section Claims

variable {K : Type} [LinearOrderedField K]

/-- C1: `Intersects(Frustum, Sphere)` returns `false` exactly when one of the six
planes has `Dot(normal, center) + offset ≤ -radius`; a plane on which the value
is exactly `-radius` rejects the sphere, and the result is `true` when every
plane has a value above `-radius`. -/
theorem IntersectsSphere_false_iff (lhs : Frustum K) (rhs : Sphere K) :
    (IntersectsSphere lhs rhs = false ↔
      ∃ s : Section, Dot (lhs.Plane s).Normal rhs.Center + (lhs.Plane s).Offset
        ≤ -rhs.Radius) ∧
    ((∃ s : Section, Dot (lhs.Plane s).Normal rhs.Center + (lhs.Plane s).Offset
        = -rhs.Radius) → IntersectsSphere lhs rhs = false) ∧
    ((∀ s : Section, -rhs.Radius <
        Dot (lhs.Plane s).Normal rhs.Center + (lhs.Plane s).Offset) →
      IntersectsSphere lhs rhs = true) := by
  have key : IntersectsSphere lhs rhs = false ↔
      ∃ s : Section, Dot (lhs.Plane s).Normal rhs.Center + (lhs.Plane s).Offset
        ≤ -rhs.Radius := by
    unfold IntersectsSphere
    rw [IntersectsSphere_loop_eq_false_iff]
    exact (Section.exists_iff_index (fun s =>
      Dot (lhs.Plane s).Normal rhs.Center + (lhs.Plane s).Offset ≤ -rhs.Radius)).symm
  refine ⟨key, ?_, ?_⟩
  · rintro ⟨s, hs⟩
    exact key.mpr ⟨s, hs.le⟩
  · intro h
    rw [← Bool.not_eq_false, key]
    rintro ⟨s, hs⟩
    exact absurd (h s) (not_lt.mpr hs)

/-- C2: `Intersects(Frustum, Box)` returns `false` exactly when one of the six
planes `(n, o)` has `max(mn.x*n.x, mx.x*n.x) + max(mn.y*n.y, mx.y*n.y) +
max(mn.z*n.z, mx.z*n.z) + o < 0`, with no ordering assumed between the extents;
a plane on which this value is exactly `0` does not reject the box: the result
is `true` as soon as the value is `≥ 0` on every plane. -/
theorem IntersectsBox_false_iff (lhs : Frustum K) (rhs : Box K) :
    (IntersectsBox lhs rhs = false ↔
      ∃ s : Section,
        max (rhs.MinExtends.x * (lhs.Plane s).Normal.x)
            (rhs.MaxExtends.x * (lhs.Plane s).Normal.x) +
        max (rhs.MinExtends.y * (lhs.Plane s).Normal.y)
            (rhs.MaxExtends.y * (lhs.Plane s).Normal.y) +
        max (rhs.MinExtends.z * (lhs.Plane s).Normal.z)
            (rhs.MaxExtends.z * (lhs.Plane s).Normal.z) + (lhs.Plane s).Offset < 0) ∧
    ((∀ s : Section, 0 ≤
        max (rhs.MinExtends.x * (lhs.Plane s).Normal.x)
            (rhs.MaxExtends.x * (lhs.Plane s).Normal.x) +
        max (rhs.MinExtends.y * (lhs.Plane s).Normal.y)
            (rhs.MaxExtends.y * (lhs.Plane s).Normal.y) +
        max (rhs.MinExtends.z * (lhs.Plane s).Normal.z)
            (rhs.MaxExtends.z * (lhs.Plane s).Normal.z) + (lhs.Plane s).Offset) →
      IntersectsBox lhs rhs = true) := by
  have key : IntersectsBox lhs rhs = false ↔
      ∃ s : Section,
        max (rhs.MinExtends.x * (lhs.Plane s).Normal.x)
            (rhs.MaxExtends.x * (lhs.Plane s).Normal.x) +
        max (rhs.MinExtends.y * (lhs.Plane s).Normal.y)
            (rhs.MaxExtends.y * (lhs.Plane s).Normal.y) +
        max (rhs.MinExtends.z * (lhs.Plane s).Normal.z)
            (rhs.MaxExtends.z * (lhs.Plane s).Normal.z) + (lhs.Plane s).Offset < 0 := by
    unfold IntersectsBox
    rw [IntersectsBox_loop_eq_false_iff,
      ← Section.exists_iff_index (fun s => IntersectsBox.d (lhs.Plane s) rhs < 0)]
    simp only [IntersectsBox.d, Max_eq_max]
  refine ⟨key, ?_⟩
  intro h
  rw [← Bool.not_eq_false, key]
  rintro ⟨s, hs⟩
  exact absurd (h s) (not_le.mpr hs)

/-- C3: on the standard perspective matrix (90 degree field of view, near
`1/10`, far `100`) the constructor stores `(0, 0, -1, -100)` as the Near plane,
and the unit sphere at the origin is reported as not intersecting, whatever the
square root function is. -/
theorem IntersectsSphere_standardPerspective_origin (sqrt : ℚ → ℚ) :
    (Frustum.ofMat4x4 sqrt standardPerspective).Plane .Near = Plane.ofCoeffs 0 0 (-1) (-100) ∧
    IntersectsSphere (Frustum.ofMat4x4 sqrt standardPerspective) (Sphere.ofCoords 0 0 0 1)
      = false := by
  constructor
  · norm_num [Frustum.ofMat4x4, standardPerspective, Frustum.Plane_GenerateFromPerspective]
  · norm_num [IntersectsSphere, IntersectsSphere.loop, Frustum.ofMat4x4, standardPerspective,
      Frustum.Plane_GenerateFromPerspective, Section.ofIndex, Plane.ofCoeffs, Plane.Normal,
      Plane.Offset, Sphere.ofCoords, Sphere.Center, Sphere.Radius, Dot]

/-- C4: on the standard perspective matrix the box test computes `-199/2` for
the Near plane and the unit box centered at the origin, so that box is reported
as not intersecting, whatever the square root function is. -/
theorem IntersectsBox_standardPerspective_unit (sqrt : ℚ → ℚ) :
    IntersectsBox.d ((Frustum.ofMat4x4 sqrt standardPerspective).Plane .Near)
      ⟨⟨-1 / 2, -1 / 2, -1 / 2⟩, ⟨1 / 2, 1 / 2, 1 / 2⟩⟩ = -199 / 2 ∧
    IntersectsBox (Frustum.ofMat4x4 sqrt standardPerspective)
      ⟨⟨-1 / 2, -1 / 2, -1 / 2⟩, ⟨1 / 2, 1 / 2, 1 / 2⟩⟩ = false := by
  constructor
  · norm_num [IntersectsBox.d, Max, Box.MinExtends, Box.MaxExtends, Frustum.ofMat4x4,
      standardPerspective, Frustum.Plane_GenerateFromPerspective, Plane.ofCoeffs, Plane.Normal,
      Plane.Offset]
  · norm_num [IntersectsBox, IntersectsBox.loop, IntersectsBox.d, Max, Box.MinExtends,
      Box.MaxExtends, Frustum.ofMat4x4, standardPerspective,
      Frustum.Plane_GenerateFromPerspective, Section.ofIndex, Plane.ofCoeffs, Plane.Normal,
      Plane.Offset]

/-- C5: on the identity matrix, an orthographic matrix with positive diagonal,
the point `(0, 0, 1/2)` lies in the visible volume, and the Near, Top and Bottom
planes stored by the constructor are negative there: these planes do not point
inward. -/
theorem ofMat4x4_unitOrthographic_not_inward :
    (unitOrthographic 3 0 = 0 ∧ unitOrthographic 3 1 = 0 ∧ unitOrthographic 3 2 = 0 ∧
      unitOrthographic 3 3 = 1) ∧
    0 < unitOrthographic 0 0 ∧ 0 < unitOrthographic 1 1 ∧ unitOrthographic 2 2 ≠ 0 ∧
    (-1 ≤ unitOrthographic 0 0 * 0 + unitOrthographic 0 3 ∧
      unitOrthographic 0 0 * 0 + unitOrthographic 0 3 ≤ 1) ∧
    (-1 ≤ unitOrthographic 1 1 * 0 + unitOrthographic 1 3 ∧
      unitOrthographic 1 1 * 0 + unitOrthographic 1 3 ≤ 1) ∧
    (0 ≤ unitOrthographic 2 2 * (1 / 2) + unitOrthographic 2 3 ∧
      unitOrthographic 2 2 * (1 / 2) + unitOrthographic 2 3 ≤ 1) ∧
    Dot ((Frustum.ofMat4x4 Rat.sqrt unitOrthographic).Plane .Near).Normal ⟨0, 0, 1 / 2⟩
      + ((Frustum.ofMat4x4 Rat.sqrt unitOrthographic).Plane .Near).Offset < 0 ∧
    Dot ((Frustum.ofMat4x4 Rat.sqrt unitOrthographic).Plane .Top).Normal ⟨0, 0, 1 / 2⟩
      + ((Frustum.ofMat4x4 Rat.sqrt unitOrthographic).Plane .Top).Offset < 0 ∧
    Dot ((Frustum.ofMat4x4 Rat.sqrt unitOrthographic).Plane .Bottom).Normal ⟨0, 0, 1 / 2⟩
      + ((Frustum.ofMat4x4 Rat.sqrt unitOrthographic).Plane .Bottom).Offset < 0 := by
  obtain ⟨h00, h03, h11, h13, h22, h23, h30, h31, h32, h33⟩ := unitOrthographic_entries
  refine ⟨?_, ?_, ?_, ?_, ?_, ?_, ?_, ?_, ?_, ?_⟩ <;>
  norm_num [Frustum.ofMat4x4, h00, h03, h11, h13, h22, h23, h30, h31, h32, h33,
    Frustum.Plane_GenerateFromOrthographic, Plane.ofCoeffs, Plane.Normal, Plane.Offset, Dot]

/-- C6: on the standard perspective matrix the derived clip distances are
`nearClip = 1/10` and `farClip = 100` (the branch `rcpZZ ≤ 0`), and the
constructor stores `(0, 0, -1, -100)` as the Near plane and `(0, 0, 1, 1/10)` as
the Far plane: the two distances are exchanged. -/
theorem ofMat4x4_standardPerspective_Near_Far (sqrt : ℚ → ℚ) :
    ¬ (1 / standardPerspective 2 2 > 0) ∧
    standardPerspective 2 3 * (1 / standardPerspective 2 2) = 1 / 10 ∧
    standardPerspective 2 3 * (1 / standardPerspective 2 2)
      / (1 / standardPerspective 2 2 + 1) = 100 ∧
    (Frustum.ofMat4x4 sqrt standardPerspective).Plane .Near = Plane.ofCoeffs 0 0 (-1) (-100) ∧
    (Frustum.ofMat4x4 sqrt standardPerspective).Plane .Far = Plane.ofCoeffs 0 0 1 (1 / 10) := by
  refine ⟨?_, ?_, ?_, ?_, ?_⟩ <;>
  norm_num [Frustum.ofMat4x4, standardPerspective, Frustum.Plane_GenerateFromPerspective]

/-- C7: on a perspective matrix with `proj(0,0) = 4/3` and `proj(1,1) = 3/4` the
constructor stores Top `(0, -4/5, -3/5, 0)` and Bottom `(0, 4/5, -3/5, 0)`, the
values of the horizontal tangent `3/4`, whereas the vertical tangent
`1/proj(1,1) = 4/3` gives `nVy = 3/5` and `nVz = -4/5`. -/
theorem ofMat4x4_anisotropicPerspective_Top_Bottom :
    (Frustum.ofMat4x4 Rat.sqrt anisotropicPerspective).Plane .Top
      = Plane.ofCoeffs 0 (-(4 / 5)) (-(3 / 5)) 0 ∧
    (Frustum.ofMat4x4 Rat.sqrt anisotropicPerspective).Plane .Bottom
      = Plane.ofCoeffs 0 (4 / 5) (-(3 / 5)) 0 ∧
    1 / Rat.sqrt (1 + 1 / anisotropicPerspective 1 1 * (1 / anisotropicPerspective 1 1))
      = 3 / 5 ∧
    -(1 / Rat.sqrt (1 + 1 / anisotropicPerspective 1 1 * (1 / anisotropicPerspective 1 1)))
      * (1 / anisotropicPerspective 1 1) = -(4 / 5) := by
  refine ⟨?_, ?_, ?_, ?_⟩ <;>
  norm_num [Frustum.ofMat4x4, anisotropicPerspective, Frustum.Plane_GenerateFromPerspective,
    ratSqrt_25_16, ratSqrt_25_9, Plane.ofCoeffs]

/-- C8: for three non-collinear points the three-point constructor gives a
unit-length normal equal to `Normalize(Cross(b - a, c - a))`, the offset
`-Dot(normal, a)`, and a plane through `a`, `b` and `c`; the square root function
is assumed to square back to `Dot(n, n)` at the cross product `n`. -/
theorem ofPoints_unit_normal_and_incidence (sqrt : K → K) (a b c : Vec3 K)
    (hcross : Cross (b.sub a) (c.sub a) ≠ ⟨0, 0, 0⟩)
    (hsqrt : sqrt (Dot (Cross (b.sub a) (c.sub a)) (Cross (b.sub a) (c.sub a)))
        * sqrt (Dot (Cross (b.sub a) (c.sub a)) (Cross (b.sub a) (c.sub a)))
      = Dot (Cross (b.sub a) (c.sub a)) (Cross (b.sub a) (c.sub a))) :
    Dot (Plane.ofPoints sqrt a b c).Normal (Plane.ofPoints sqrt a b c).Normal = 1 ∧
    (Plane.ofPoints sqrt a b c).Normal = Normalize sqrt (Cross (b.sub a) (c.sub a)) ∧
    (Plane.ofPoints sqrt a b c).Offset = -Dot (Plane.ofPoints sqrt a b c).Normal a ∧
    Dot (Plane.ofPoints sqrt a b c).Normal a + (Plane.ofPoints sqrt a b c).Offset = 0 ∧
    Dot (Plane.ofPoints sqrt a b c).Normal b + (Plane.ofPoints sqrt a b c).Offset = 0 ∧
    Dot (Plane.ofPoints sqrt a b c).Normal c + (Plane.ofPoints sqrt a b c).Offset = 0 := by
  have hd : Dot (Cross (b.sub a) (c.sub a)) (Cross (b.sub a) (c.sub a)) ≠ 0 :=
    fun h => hcross (Vec3.eq_zero_of_Dot_self_eq_zero _ h)
  have hN : (Plane.ofPoints sqrt a b c).Normal
      = Normalize sqrt (Cross (b.sub a) (c.sub a)) := rfl
  have hO : (Plane.ofPoints sqrt a b c).Offset
      = -Dot (Plane.ofPoints sqrt a b c).Normal a := rfl
  have hb : Dot (Normalize sqrt (Cross (b.sub a) (c.sub a))) (b.sub a) = 0 := by
    rw [Dot_Normalize_left, Dot_Cross_left, zero_div]
  have hc : Dot (Normalize sqrt (Cross (b.sub a) (c.sub a))) (c.sub a) = 0 := by
    rw [Dot_Normalize_left, Dot_Cross_right, zero_div]
  rw [Dot_sub_right] at hb hc
  refine ⟨?_, hN, hO, ?_, ?_, ?_⟩
  · rw [hN, Dot_Normalize_left, Dot_Normalize_right, div_div, hsqrt, div_self hd]
  · rw [hO]; ring
  · rw [hO, hN]; linarith
  · rw [hO, hN]; linarith

/-- C8 at the points `(0, 0, 0)`, `(2, 0, 0)`, `(0, 2, 0)`, whose cross product
`(0, 0, 4)` has the rational length `4`. -/
theorem ofPoints_unit_normal_and_incidence_witness :
    Cross (Vec3.sub (⟨2, 0, 0⟩ : Vec3 ℚ) ⟨0, 0, 0⟩) (Vec3.sub ⟨0, 2, 0⟩ ⟨0, 0, 0⟩)
      = ⟨0, 0, 4⟩ ∧
    (Dot (Plane.ofPoints Rat.sqrt (⟨0, 0, 0⟩ : Vec3 ℚ) ⟨2, 0, 0⟩ ⟨0, 2, 0⟩).Normal
      (Plane.ofPoints Rat.sqrt (⟨0, 0, 0⟩ : Vec3 ℚ) ⟨2, 0, 0⟩ ⟨0, 2, 0⟩).Normal = 1 ∧
    (Plane.ofPoints Rat.sqrt (⟨0, 0, 0⟩ : Vec3 ℚ) ⟨2, 0, 0⟩ ⟨0, 2, 0⟩).Normal
      = Normalize Rat.sqrt (Cross (Vec3.sub ⟨2, 0, 0⟩ ⟨0, 0, 0⟩) (Vec3.sub ⟨0, 2, 0⟩ ⟨0, 0, 0⟩)) ∧
    (Plane.ofPoints Rat.sqrt (⟨0, 0, 0⟩ : Vec3 ℚ) ⟨2, 0, 0⟩ ⟨0, 2, 0⟩).Offset
      = -Dot (Plane.ofPoints Rat.sqrt (⟨0, 0, 0⟩ : Vec3 ℚ) ⟨2, 0, 0⟩ ⟨0, 2, 0⟩).Normal
          ⟨0, 0, 0⟩ ∧
    Dot (Plane.ofPoints Rat.sqrt (⟨0, 0, 0⟩ : Vec3 ℚ) ⟨2, 0, 0⟩ ⟨0, 2, 0⟩).Normal ⟨0, 0, 0⟩
      + (Plane.ofPoints Rat.sqrt (⟨0, 0, 0⟩ : Vec3 ℚ) ⟨2, 0, 0⟩ ⟨0, 2, 0⟩).Offset = 0 ∧
    Dot (Plane.ofPoints Rat.sqrt (⟨0, 0, 0⟩ : Vec3 ℚ) ⟨2, 0, 0⟩ ⟨0, 2, 0⟩).Normal ⟨2, 0, 0⟩
      + (Plane.ofPoints Rat.sqrt (⟨0, 0, 0⟩ : Vec3 ℚ) ⟨2, 0, 0⟩ ⟨0, 2, 0⟩).Offset = 0 ∧
    Dot (Plane.ofPoints Rat.sqrt (⟨0, 0, 0⟩ : Vec3 ℚ) ⟨2, 0, 0⟩ ⟨0, 2, 0⟩).Normal ⟨0, 2, 0⟩
      + (Plane.ofPoints Rat.sqrt (⟨0, 0, 0⟩ : Vec3 ℚ) ⟨2, 0, 0⟩ ⟨0, 2, 0⟩).Offset = 0) := by
  have hcross : Cross (Vec3.sub (⟨2, 0, 0⟩ : Vec3 ℚ) ⟨0, 0, 0⟩) (Vec3.sub ⟨0, 2, 0⟩ ⟨0, 0, 0⟩)
      = ⟨0, 0, 4⟩ := by
    norm_num [Cross, Vec3.sub]
  refine ⟨hcross, ofPoints_unit_normal_and_incidence Rat.sqrt ⟨0, 0, 0⟩ ⟨2, 0, 0⟩
    ⟨0, 2, 0⟩ ?_ ?_⟩
  · rw [hcross]
    intro h
    injection h with _ _ h3
    norm_num at h3
  · rw [hcross]
    have h16 : Dot (⟨0, 0, 4⟩ : Vec3 ℚ) ⟨0, 0, 4⟩ = 4 * 4 := by norm_num [Dot]
    rw [h16, Rat.sqrt_eq]
    norm_num [abs_of_pos]

/-- C9: for an invertible matrix `M`, a plane `P` and a point `p` on `P`, the
coefficients of `M * P` and the homogeneous image `q = M * (p, 1)` satisfy
`n.x*q.x + n.y*q.y + n.z*q.z + o*q.w = 0`; when the last row of `M` is
`(0, 0, 0, 1)`, `q.w = 1` and the point `(q.x, q.y, q.z)` lies on `M * P`. -/
theorem mulPlane_preserves_incidence (M : Mat4x4 K) (P : Plane K) (p : Vec3 K)
    (hM : Matrix.det M ≠ 0) (hp : Dot P.Normal p + P.Offset = 0) :
    (mulPlane M P).Normal.x * (M.mulVec4 (Vec4.ofVec3 p 1)).x
      + (mulPlane M P).Normal.y * (M.mulVec4 (Vec4.ofVec3 p 1)).y
      + (mulPlane M P).Normal.z * (M.mulVec4 (Vec4.ofVec3 p 1)).z
      + (mulPlane M P).Offset * (M.mulVec4 (Vec4.ofVec3 p 1)).w = 0 ∧
    ((M 3 0 = 0 ∧ M 3 1 = 0 ∧ M 3 2 = 0 ∧ M 3 3 = 1) →
      (M.mulVec4 (Vec4.ofVec3 p 1)).w = 1 ∧
      Dot (mulPlane M P).Normal
          ⟨(M.mulVec4 (Vec4.ofVec3 p 1)).x, (M.mulVec4 (Vec4.ofVec3 p 1)).y,
            (M.mulVec4 (Vec4.ofVec3 p 1)).z⟩
        + (mulPlane M P).Offset = 0) := by
  have key := mulPlane_mulVec4_eq M P p hM
  rw [hp] at key
  refine ⟨key, ?_⟩
  rintro ⟨h0, h1, h2, h3⟩
  have hw : (M.mulVec4 (Vec4.ofVec3 p 1)).w = 1 := by
    simp [Mat4x4.mulVec4, Vec4.ofVec3, h0, h1, h2, h3]
  refine ⟨hw, ?_⟩
  rw [hw, mul_one] at key
  simpa [Dot] using key

/-- C9 at the matrix `translateScale`, the plane `z = 1` and the point
`(5, 7, 1)`. -/
theorem mulPlane_preserves_incidence_witness :
    Matrix.det translateScale ≠ 0 ∧
    Dot (Plane.mk ⟨0, 0, 1⟩ (-1) : Plane ℚ).Normal ⟨5, 7, 1⟩
      + (Plane.mk ⟨0, 0, 1⟩ (-1) : Plane ℚ).Offset = 0 ∧
    ((mulPlane translateScale ⟨⟨0, 0, 1⟩, -1⟩).Normal.x
        * (translateScale.mulVec4 (Vec4.ofVec3 ⟨5, 7, 1⟩ 1)).x
      + (mulPlane translateScale ⟨⟨0, 0, 1⟩, -1⟩).Normal.y
        * (translateScale.mulVec4 (Vec4.ofVec3 ⟨5, 7, 1⟩ 1)).y
      + (mulPlane translateScale ⟨⟨0, 0, 1⟩, -1⟩).Normal.z
        * (translateScale.mulVec4 (Vec4.ofVec3 ⟨5, 7, 1⟩ 1)).z
      + (mulPlane translateScale ⟨⟨0, 0, 1⟩, -1⟩).Offset
        * (translateScale.mulVec4 (Vec4.ofVec3 ⟨5, 7, 1⟩ 1)).w = 0 ∧
    ((translateScale 3 0 = 0 ∧ translateScale 3 1 = 0 ∧ translateScale 3 2 = 0 ∧
        translateScale 3 3 = 1) →
      (translateScale.mulVec4 (Vec4.ofVec3 ⟨5, 7, 1⟩ 1)).w = 1 ∧
      Dot (mulPlane translateScale ⟨⟨0, 0, 1⟩, -1⟩).Normal
          ⟨(translateScale.mulVec4 (Vec4.ofVec3 ⟨5, 7, 1⟩ 1)).x,
            (translateScale.mulVec4 (Vec4.ofVec3 ⟨5, 7, 1⟩ 1)).y,
            (translateScale.mulVec4 (Vec4.ofVec3 ⟨5, 7, 1⟩ 1)).z⟩
        + (mulPlane translateScale ⟨⟨0, 0, 1⟩, -1⟩).Offset = 0)) := by
  have hdet : Matrix.det translateScale ≠ 0 := by
    rw [translateScale_det]; norm_num
  have hp : Dot (Plane.mk ⟨0, 0, 1⟩ (-1) : Plane ℚ).Normal ⟨5, 7, 1⟩
      + (Plane.mk ⟨0, 0, 1⟩ (-1) : Plane ℚ).Offset = 0 := by
    norm_num [Dot, Plane.Normal, Plane.Offset]
  exact ⟨hdet, hp, mulPlane_preserves_incidence translateScale ⟨⟨0, 0, 1⟩, -1⟩ ⟨5, 7, 1⟩
    hdet hp⟩

/-- C10: the identity matrix applied to a frustum leaves the normal and the
offset of each of the six planes unchanged. -/
theorem mulFrustum_one (F : Frustum K) (s : Section) :
    ((mulFrustum 1 F).Plane s).Normal = (F.Plane s).Normal ∧
    ((mulFrustum 1 F).Plane s).Offset = (F.Plane s).Offset := by
  rw [mulFrustum_Plane_eq, mulPlane_one]
  exact ⟨rfl, rfl⟩

/-- C11: on the identity matrix the bounds are `left = -1`, `right = 1`,
`top = 1`, `bottom = -1`; the constructor stores Left `(1, 0, 0, 1)` and Right
`(-1, 0, 0, 1)`, the closed forms `(1, 0, 0, -left)` and `(-1, 0, 0, right)`, but
Top `(0, -1, 0, -1)` and Bottom `(0, 1, 0, -1)`, which are `(0, -1, 0, bottom)` and
`(0, 1, 0, -top)` and not `(0, -1, 0, top)` and `(0, 1, 0, -bottom)`. -/
theorem ofMat4x4_unitOrthographic_side_planes :
    (-1 - unitOrthographic 0 3) / unitOrthographic 0 0 = -1 ∧
    (1 - unitOrthographic 0 3) / unitOrthographic 0 0 = 1 ∧
    (1 - unitOrthographic 1 3) / unitOrthographic 1 1 = 1 ∧
    (-1 - unitOrthographic 1 3) / unitOrthographic 1 1 = -1 ∧
    (Frustum.ofMat4x4 Rat.sqrt unitOrthographic).Plane .Left = Plane.ofCoeffs 1 0 0 1 ∧
    (Frustum.ofMat4x4 Rat.sqrt unitOrthographic).Plane .Right = Plane.ofCoeffs (-1) 0 0 1 ∧
    (Frustum.ofMat4x4 Rat.sqrt unitOrthographic).Plane .Top = Plane.ofCoeffs 0 (-1) 0 (-1) ∧
    (Frustum.ofMat4x4 Rat.sqrt unitOrthographic).Plane .Bottom = Plane.ofCoeffs 0 1 0 (-1) ∧
    (Plane.ofCoeffs 0 (-1) 0 (-1) : Plane ℚ) ≠ Plane.ofCoeffs 0 (-1) 0 1 ∧
    (Plane.ofCoeffs 0 1 0 (-1) : Plane ℚ) ≠ Plane.ofCoeffs 0 1 0 1 := by
  obtain ⟨h00, h03, h11, h13, h22, h23, h30, h31, h32, h33⟩ := unitOrthographic_entries
  refine ⟨?_, ?_, ?_, ?_, ?_, ?_, ?_, ?_, ?_, ?_⟩ <;>
  norm_num [Frustum.ofMat4x4, h00, h03, h11, h13, h22, h23, h30, h31, h32, h33,
    Frustum.Plane_GenerateFromOrthographic, Plane.ofCoeffs]

/-- C12: on the standard perspective matrix the sphere of radius `1` centered at
`(0, 0, -1000)` is reported as not intersecting, whatever the square root
function is. -/
theorem IntersectsSphere_standardPerspective_far (sqrt : ℚ → ℚ) :
    IntersectsSphere (Frustum.ofMat4x4 sqrt standardPerspective)
      (Sphere.ofCoords 0 0 (-1000) 1) = false := by
  norm_num [IntersectsSphere, IntersectsSphere.loop, Frustum.ofMat4x4, standardPerspective,
    Frustum.Plane_GenerateFromPerspective, Section.ofIndex, Plane.ofCoeffs, Plane.Normal,
    Plane.Offset, Sphere.ofCoords, Sphere.Center, Sphere.Radius, Dot]

/-- C13: on the standard perspective matrix the unit box centered at
`(1000, 0, 0)` is reported as not intersecting, whatever the square root
function is. -/
theorem IntersectsBox_standardPerspective_far (sqrt : ℚ → ℚ) :
    IntersectsBox (Frustum.ofMat4x4 sqrt standardPerspective)
      ⟨⟨1999 / 2, -1 / 2, -1 / 2⟩, ⟨2001 / 2, 1 / 2, 1 / 2⟩⟩ = false := by
  norm_num [IntersectsBox, IntersectsBox.loop, IntersectsBox.d, Max, Box.MinExtends,
    Box.MaxExtends, Frustum.ofMat4x4, standardPerspective,
    Frustum.Plane_GenerateFromPerspective, Section.ofIndex, Plane.ofCoeffs, Plane.Normal,
    Plane.Offset]

/-- C14: `M * F` agrees plane by plane with the single-plane transform and keeps
the section order: the plane of `M * F` at a section is `M * (F.Plane(section))`,
which is `Transpose(Inverse(M))` applied to the 4-vector `(normal, offset)`. -/
theorem mulFrustum_planewise (M : Mat4x4 K) (F : Frustum K) (s : Section) :
    (mulFrustum M F).Plane s = mulPlane M (F.Plane s) ∧
    mulPlane M (F.Plane s) = Plane.ofVec4
      ((Transpose (Inverse M)).mulVec4 (Vec4.ofVec3 (F.Plane s).Normal (F.Plane s).Offset)) ∧
    (mulFrustum M F).Plane s = Plane.ofVec4
      ((Transpose (Inverse M)).mulVec4 (Vec4.ofVec3 (F.Plane s).Normal (F.Plane s).Offset)) := by
  refine ⟨mulFrustum_Plane_eq M F s, rfl, ?_⟩
  rw [mulFrustum_Plane_eq]
  rfl

/-- C15: `M * S` has exactly the radius of `S`, and its center is made of the
`x`, `y`, `z` components of `M * (center, 1)`, that is of the affine expressions
`M(i,0)*c.x + M(i,1)*c.y + M(i,2)*c.z + M(i,3)` for `i = 0, 1, 2`, with no division
by the fourth component. -/
theorem mulSphere_center_radius (M : Mat4x4 K) (S : Sphere K) :
    (mulSphere M S).Radius = S.Radius ∧
    (mulSphere M S).Center =
      ⟨(M.mulVec4 (Vec4.ofVec3 S.Center 1)).x, (M.mulVec4 (Vec4.ofVec3 S.Center 1)).y,
        (M.mulVec4 (Vec4.ofVec3 S.Center 1)).z⟩ ∧
    (mulSphere M S).Center =
      ⟨M 0 0 * S.Center.x + M 0 1 * S.Center.y + M 0 2 * S.Center.z + M 0 3,
       M 1 0 * S.Center.x + M 1 1 * S.Center.y + M 1 2 * S.Center.z + M 1 3,
       M 2 0 * S.Center.x + M 2 1 * S.Center.y + M 2 2 * S.Center.z + M 2 3⟩ := by
  refine ⟨rfl, rfl, ?_⟩
  simp [mulSphere, Sphere.ofCoords, Sphere.Center, Mat4x4.mulVec4, Vec4.ofVec3]

/-- C16: when the box test returns `false` there is one plane of the frustum on
which every point of the box (component-wise between the two extents) is
strictly negative; the tested value bounds `Dot(n, p) + o` from above over the
box, for each plane, and is the value at one of the 8 corners. -/
theorem IntersectsBox_false_sound (lhs : Frustum K) (rhs : Box K)
    (h : IntersectsBox lhs rhs = false) :
    (∃ s : Section, ∀ p : Vec3 K,
      (rhs.MinExtends.x ≤ p.x ∧ p.x ≤ rhs.MaxExtends.x) →
      (rhs.MinExtends.y ≤ p.y ∧ p.y ≤ rhs.MaxExtends.y) →
      (rhs.MinExtends.z ≤ p.z ∧ p.z ≤ rhs.MaxExtends.z) →
      Dot (lhs.Plane s).Normal p + (lhs.Plane s).Offset < 0) ∧
    (∀ (s : Section) (p : Vec3 K),
      (rhs.MinExtends.x ≤ p.x ∧ p.x ≤ rhs.MaxExtends.x) →
      (rhs.MinExtends.y ≤ p.y ∧ p.y ≤ rhs.MaxExtends.y) →
      (rhs.MinExtends.z ≤ p.z ∧ p.z ≤ rhs.MaxExtends.z) →
      Dot (lhs.Plane s).Normal p + (lhs.Plane s).Offset
        ≤ max (rhs.MinExtends.x * (lhs.Plane s).Normal.x)
              (rhs.MaxExtends.x * (lhs.Plane s).Normal.x) +
          max (rhs.MinExtends.y * (lhs.Plane s).Normal.y)
              (rhs.MaxExtends.y * (lhs.Plane s).Normal.y) +
          max (rhs.MinExtends.z * (lhs.Plane s).Normal.z)
              (rhs.MaxExtends.z * (lhs.Plane s).Normal.z) + (lhs.Plane s).Offset) ∧
    (∀ s : Section, ∃ c : Vec3 K,
      (c.x = rhs.MinExtends.x ∨ c.x = rhs.MaxExtends.x) ∧
      (c.y = rhs.MinExtends.y ∨ c.y = rhs.MaxExtends.y) ∧
      (c.z = rhs.MinExtends.z ∨ c.z = rhs.MaxExtends.z) ∧
      Dot (lhs.Plane s).Normal c + (lhs.Plane s).Offset
        = max (rhs.MinExtends.x * (lhs.Plane s).Normal.x)
              (rhs.MaxExtends.x * (lhs.Plane s).Normal.x) +
          max (rhs.MinExtends.y * (lhs.Plane s).Normal.y)
              (rhs.MaxExtends.y * (lhs.Plane s).Normal.y) +
          max (rhs.MinExtends.z * (lhs.Plane s).Normal.z)
              (rhs.MaxExtends.z * (lhs.Plane s).Normal.z) + (lhs.Plane s).Offset) := by
  obtain ⟨s, hs⟩ := (IntersectsBox_eq_false_iff_exists lhs rhs).mp h
  refine ⟨⟨s, fun p hx hy hz => ?_⟩, fun s p hx hy hz => ?_, fun s => ?_⟩
  · exact lt_of_le_of_lt (IntersectsBox_d_upper_bound _ rhs p hx hy hz) hs
  · simpa only [IntersectsBox.d, Max_eq_max] using
      IntersectsBox_d_upper_bound (lhs.Plane s) rhs p hx hy hz
  · simpa only [IntersectsBox.d, Max_eq_max] using IntersectsBox_d_attained (lhs.Plane s) rhs

/-- C16 at the frustum of the standard perspective matrix and the unit box
centered at the origin. -/
theorem IntersectsBox_false_sound_witness :
    IntersectsBox (Frustum.ofMat4x4 Rat.sqrt standardPerspective) unitBox = false ∧
    ∃ s : Section, ∀ p : Vec3 ℚ,
      (unitBox.MinExtends.x ≤ p.x ∧ p.x ≤ unitBox.MaxExtends.x) →
      (unitBox.MinExtends.y ≤ p.y ∧ p.y ≤ unitBox.MaxExtends.y) →
      (unitBox.MinExtends.z ≤ p.z ∧ p.z ≤ unitBox.MaxExtends.z) →
      Dot ((Frustum.ofMat4x4 Rat.sqrt standardPerspective).Plane s).Normal p
        + ((Frustum.ofMat4x4 Rat.sqrt standardPerspective).Plane s).Offset < 0 := by
  have h : IntersectsBox (Frustum.ofMat4x4 Rat.sqrt standardPerspective) unitBox = false := by
    norm_num [IntersectsBox, IntersectsBox.loop, IntersectsBox.d, Max, Box.MinExtends,
      Box.MaxExtends, unitBox, Frustum.ofMat4x4, standardPerspective,
      Frustum.Plane_GenerateFromPerspective, Section.ofIndex, Plane.ofCoeffs, Plane.Normal,
      Plane.Offset]
  exact ⟨h, (IntersectsBox_false_sound _ _ h).1⟩

/-- C17: when the frustum has unit-length normals, the radius is non-negative
and the sphere test returns `false`, there is one plane of the frustum on which
every point of the ball is `≤ 0`, so no point of the ball is strictly inside all
six half-spaces. -/
theorem IntersectsSphere_false_sound (lhs : Frustum K) (rhs : Sphere K)
    (hunit : ∀ s : Section, Dot (lhs.Plane s).Normal (lhs.Plane s).Normal = 1)
    (hr : 0 ≤ rhs.Radius)
    (h : IntersectsSphere lhs rhs = false) :
    (∃ s : Section, ∀ p : Vec3 K,
      Dot (p.sub rhs.Center) (p.sub rhs.Center) ≤ rhs.Radius * rhs.Radius →
      Dot (lhs.Plane s).Normal p + (lhs.Plane s).Offset ≤ 0) ∧
    ¬ ∃ p : Vec3 K,
      Dot (p.sub rhs.Center) (p.sub rhs.Center) ≤ rhs.Radius * rhs.Radius ∧
      ∀ s : Section, 0 < Dot (lhs.Plane s).Normal p + (lhs.Plane s).Offset := by
  obtain ⟨s, hs⟩ := (IntersectsSphere_eq_false_iff_exists lhs rhs).mp h
  have key : ∀ p : Vec3 K,
      Dot (p.sub rhs.Center) (p.sub rhs.Center) ≤ rhs.Radius * rhs.Radius →
      Dot (lhs.Plane s).Normal p + (lhs.Plane s).Offset ≤ 0 := by
    intro p hp
    have h1 := Dot_le_of_unit_of_ball _ _ _ (hunit s) hr hp
    rw [Dot_sub_right] at h1
    linarith
  refine ⟨⟨s, key⟩, ?_⟩
  rintro ⟨p, hp, hall⟩
  exact absurd (hall s) (not_lt.mpr (key p hp))

/-- C17 at the frustum of the identity matrix and the sphere of radius `1`
centered at `(5, 0, 0)`. -/
theorem IntersectsSphere_false_sound_witness :
    (∀ s : Section, Dot ((Frustum.ofMat4x4 Rat.sqrt unitOrthographic).Plane s).Normal
      ((Frustum.ofMat4x4 Rat.sqrt unitOrthographic).Plane s).Normal = 1) ∧
    0 ≤ (Sphere.ofCoords 5 0 0 1 : Sphere ℚ).Radius ∧
    IntersectsSphere (Frustum.ofMat4x4 Rat.sqrt unitOrthographic) (Sphere.ofCoords 5 0 0 1)
      = false ∧
    ∃ s : Section, ∀ p : Vec3 ℚ,
      Dot (p.sub (Sphere.ofCoords 5 0 0 1 : Sphere ℚ).Center)
          (p.sub (Sphere.ofCoords 5 0 0 1 : Sphere ℚ).Center)
        ≤ (Sphere.ofCoords 5 0 0 1 : Sphere ℚ).Radius
          * (Sphere.ofCoords 5 0 0 1 : Sphere ℚ).Radius →
      Dot ((Frustum.ofMat4x4 Rat.sqrt unitOrthographic).Plane s).Normal p
        + ((Frustum.ofMat4x4 Rat.sqrt unitOrthographic).Plane s).Offset ≤ 0 := by
  obtain ⟨h00, h03, h11, h13, h22, h23, h30, h31, h32, h33⟩ := unitOrthographic_entries
  have hunit : ∀ s : Section, Dot ((Frustum.ofMat4x4 Rat.sqrt unitOrthographic).Plane s).Normal
      ((Frustum.ofMat4x4 Rat.sqrt unitOrthographic).Plane s).Normal = 1 := by
    intro s
    cases s <;>
    norm_num [Frustum.ofMat4x4, h00, h03, h11, h13, h22, h23, h30, h31, h32, h33,
      Frustum.Plane_GenerateFromOrthographic, Plane.ofCoeffs, Plane.Normal, Dot]
  have hr : 0 ≤ (Sphere.ofCoords 5 0 0 1 : Sphere ℚ).Radius := by
    norm_num [Sphere.ofCoords, Sphere.Radius]
  have h : IntersectsSphere (Frustum.ofMat4x4 Rat.sqrt unitOrthographic)
      (Sphere.ofCoords 5 0 0 1) = false := by
    norm_num [IntersectsSphere, IntersectsSphere.loop, Frustum.ofMat4x4, h00, h03, h11, h13,
      h22, h23, h30, h31, h32, h33, Frustum.Plane_GenerateFromOrthographic, Section.ofIndex,
      Plane.ofCoeffs, Plane.Normal, Plane.Offset, Sphere.ofCoords, Sphere.Center,
      Sphere.Radius, Dot]
  exact ⟨hunit, hr, h, (IntersectsSphere_false_sound _ _ hunit hr h).1⟩

/-- C18: for every projection matrix taken down the perspective branch, the
Left, Right, Top and Bottom planes have unit-length normals and offset `0`, and
the Near and Far planes have the normals `(0, 0, -1)` and `(0, 0, 1)`; the square
root function is assumed to square back to `1 + t*t` at the tangent
`t = 1/proj(0,0)` that the constructor uses. -/
theorem ofMat4x4_perspective_unit_normals (sqrt : K → K) (proj : Mat4x4 K)
    (hrow : ¬ (proj 3 0 = 0 ∧ proj 3 1 = 0 ∧ proj 3 2 = 0 ∧ proj 3 3 = 1))
    (hsqrt : sqrt (1 + 1 / proj 0 0 * (1 / proj 0 0)) * sqrt (1 + 1 / proj 0 0 * (1 / proj 0 0))
      = 1 + 1 / proj 0 0 * (1 / proj 0 0)) :
    (Dot ((Frustum.ofMat4x4 sqrt proj).Plane .Left).Normal
        ((Frustum.ofMat4x4 sqrt proj).Plane .Left).Normal = 1 ∧
      ((Frustum.ofMat4x4 sqrt proj).Plane .Left).Offset = 0) ∧
    (Dot ((Frustum.ofMat4x4 sqrt proj).Plane .Right).Normal
        ((Frustum.ofMat4x4 sqrt proj).Plane .Right).Normal = 1 ∧
      ((Frustum.ofMat4x4 sqrt proj).Plane .Right).Offset = 0) ∧
    (Dot ((Frustum.ofMat4x4 sqrt proj).Plane .Top).Normal
        ((Frustum.ofMat4x4 sqrt proj).Plane .Top).Normal = 1 ∧
      ((Frustum.ofMat4x4 sqrt proj).Plane .Top).Offset = 0) ∧
    (Dot ((Frustum.ofMat4x4 sqrt proj).Plane .Bottom).Normal
        ((Frustum.ofMat4x4 sqrt proj).Plane .Bottom).Normal = 1 ∧
      ((Frustum.ofMat4x4 sqrt proj).Plane .Bottom).Offset = 0) ∧
    ((Frustum.ofMat4x4 sqrt proj).Plane .Near).Normal = ⟨0, 0, -1⟩ ∧
    ((Frustum.ofMat4x4 sqrt proj).Plane .Far).Normal = ⟨0, 0, 1⟩ := by
  have hu := unit_of_sqrt_sq _ _ hsqrt
  rw [ofMat4x4_perspective_eq sqrt proj hrow]
  split_ifs <;>
  · simp only [Frustum.Plane_GenerateFromPerspective, Plane.ofCoeffs, Plane.Normal,
      Plane.Offset, Dot]
    simp only [and_true]
    refine ⟨?_, ?_, ?_, ?_⟩ <;>
    linear_combination hu

/-- C18 at the matrix `anisotropicPerspective`, where `1 + t*t = 25/16`. -/
theorem ofMat4x4_perspective_unit_normals_witness :
    ¬ (anisotropicPerspective 3 0 = 0 ∧ anisotropicPerspective 3 1 = 0 ∧
      anisotropicPerspective 3 2 = 0 ∧ anisotropicPerspective 3 3 = 1) ∧
    ((Dot ((Frustum.ofMat4x4 Rat.sqrt anisotropicPerspective).Plane .Left).Normal
        ((Frustum.ofMat4x4 Rat.sqrt anisotropicPerspective).Plane .Left).Normal = 1 ∧
      ((Frustum.ofMat4x4 Rat.sqrt anisotropicPerspective).Plane .Left).Offset = 0) ∧
    (Dot ((Frustum.ofMat4x4 Rat.sqrt anisotropicPerspective).Plane .Right).Normal
        ((Frustum.ofMat4x4 Rat.sqrt anisotropicPerspective).Plane .Right).Normal = 1 ∧
      ((Frustum.ofMat4x4 Rat.sqrt anisotropicPerspective).Plane .Right).Offset = 0) ∧
    (Dot ((Frustum.ofMat4x4 Rat.sqrt anisotropicPerspective).Plane .Top).Normal
        ((Frustum.ofMat4x4 Rat.sqrt anisotropicPerspective).Plane .Top).Normal = 1 ∧
      ((Frustum.ofMat4x4 Rat.sqrt anisotropicPerspective).Plane .Top).Offset = 0) ∧
    (Dot ((Frustum.ofMat4x4 Rat.sqrt anisotropicPerspective).Plane .Bottom).Normal
        ((Frustum.ofMat4x4 Rat.sqrt anisotropicPerspective).Plane .Bottom).Normal = 1 ∧
      ((Frustum.ofMat4x4 Rat.sqrt anisotropicPerspective).Plane .Bottom).Offset = 0) ∧
    ((Frustum.ofMat4x4 Rat.sqrt anisotropicPerspective).Plane .Near).Normal = ⟨0, 0, -1⟩ ∧
    ((Frustum.ofMat4x4 Rat.sqrt anisotropicPerspective).Plane .Far).Normal = ⟨0, 0, 1⟩) := by
  have hrow : ¬ (anisotropicPerspective 3 0 = 0 ∧ anisotropicPerspective 3 1 = 0 ∧
      anisotropicPerspective 3 2 = 0 ∧ anisotropicPerspective 3 3 = 1) := by
    decide
  have h00 : anisotropicPerspective 0 0 = 4 / 3 := rfl
  refine ⟨hrow, ofMat4x4_perspective_unit_normals Rat.sqrt anisotropicPerspective hrow ?_⟩
  rw [h00]
  norm_num [ratSqrt_25_16]

/-- C19: for every orthographic projection matrix, with
`front = (0 - proj(2,3))/proj(2,2)` and `back = (1 - proj(2,3))/proj(2,2)`, the
Near plane is `(0, 0, -1, -min(front, back))` and the Far plane is
`(0, 0, 1, max(front, back))`, also when `front = back`. -/
theorem ofMat4x4_orthographic_Near_Far (sqrt : K → K) (proj : Mat4x4 K)
    (hrow : proj 3 0 = 0 ∧ proj 3 1 = 0 ∧ proj 3 2 = 0 ∧ proj 3 3 = 1) :
    (Frustum.ofMat4x4 sqrt proj).Plane .Near = Plane.ofCoeffs 0 0 (-1)
      (-(min ((0 - proj 2 3) / proj 2 2) ((1 - proj 2 3) / proj 2 2))) ∧
    (Frustum.ofMat4x4 sqrt proj).Plane .Far = Plane.ofCoeffs 0 0 1
      (max ((0 - proj 2 3) / proj 2 2) ((1 - proj 2 3) / proj 2 2)) ∧
    ((0 - proj 2 3) / proj 2 2 = (1 - proj 2 3) / proj 2 2 →
      (Frustum.ofMat4x4 sqrt proj).Plane .Near
        = Plane.ofCoeffs 0 0 (-1) (-((0 - proj 2 3) / proj 2 2)) ∧
      (Frustum.ofMat4x4 sqrt proj).Plane .Far
        = Plane.ofCoeffs 0 0 1 ((0 - proj 2 3) / proj 2 2)) := by
  have key : (Frustum.ofMat4x4 sqrt proj).Plane .Near = Plane.ofCoeffs 0 0 (-1)
        (-(min ((0 - proj 2 3) / proj 2 2) ((1 - proj 2 3) / proj 2 2))) ∧
      (Frustum.ofMat4x4 sqrt proj).Plane .Far = Plane.ofCoeffs 0 0 1
        (max ((0 - proj 2 3) / proj 2 2) ((1 - proj 2 3) / proj 2 2)) := by
    simp only [Frustum.ofMat4x4, if_pos hrow, mul_one_div]
    split_ifs with h
    · simp only [Frustum.Plane_GenerateFromOrthographic, min_eq_left h.le, max_eq_right h.le,
        and_self]
    · simp only [Frustum.Plane_GenerateFromOrthographic, min_eq_right (not_lt.mp h),
        max_eq_left (not_lt.mp h), and_self]
  refine ⟨key.1, key.2, fun heq => ?_⟩
  have k1 := key.1
  have k2 := key.2
  rw [← heq, min_self] at k1
  rw [← heq, max_self] at k2
  exact ⟨k1, k2⟩

/-- C19 at the identity matrix, where `front = 0` and `back = 1`. -/
theorem ofMat4x4_orthographic_Near_Far_witness :
    (unitOrthographic 3 0 = 0 ∧ unitOrthographic 3 1 = 0 ∧ unitOrthographic 3 2 = 0 ∧
      unitOrthographic 3 3 = 1) ∧
    (Frustum.ofMat4x4 Rat.sqrt unitOrthographic).Plane .Near = Plane.ofCoeffs 0 0 (-1)
      (-(min ((0 - unitOrthographic 2 3) / unitOrthographic 2 2)
        ((1 - unitOrthographic 2 3) / unitOrthographic 2 2))) ∧
    (Frustum.ofMat4x4 Rat.sqrt unitOrthographic).Plane .Far = Plane.ofCoeffs 0 0 1
      (max ((0 - unitOrthographic 2 3) / unitOrthographic 2 2)
        ((1 - unitOrthographic 2 3) / unitOrthographic 2 2)) := by
  have hrow : unitOrthographic 3 0 = 0 ∧ unitOrthographic 3 1 = 0 ∧
      unitOrthographic 3 2 = 0 ∧ unitOrthographic 3 3 = 1 := by
    decide
  have h := ofMat4x4_orthographic_Near_Far Rat.sqrt unitOrthographic hrow
  exact ⟨hrow, h.1, h.2.1⟩

/-- C20: for an invertible affine matrix `M`, the sphere test gives the same
result on `(M * F, M * S)` as on `(F, S)`: each transformed plane takes at the
transformed center the value the plane took at the center, and the radius is
unchanged. -/
theorem IntersectsSphere_mul_invariant (M : Mat4x4 K) (F : Frustum K) (S : Sphere K)
    (hM : Matrix.det M ≠ 0)
    (haff : M 3 0 = 0 ∧ M 3 1 = 0 ∧ M 3 2 = 0 ∧ M 3 3 = 1) :
    IntersectsSphere (mulFrustum M F) (mulSphere M S) = IntersectsSphere F S ∧
    (∀ s : Section,
      Dot ((mulFrustum M F).Plane s).Normal (mulSphere M S).Center
          + ((mulFrustum M F).Plane s).Offset
        = Dot (F.Plane s).Normal S.Center + (F.Plane s).Offset) ∧
    (mulSphere M S).Radius = S.Radius := by
  have hval : ∀ s : Section,
      Dot ((mulFrustum M F).Plane s).Normal (mulSphere M S).Center
          + ((mulFrustum M F).Plane s).Offset
        = Dot (F.Plane s).Normal S.Center + (F.Plane s).Offset := by
    intro s
    rw [mulFrustum_Plane_eq]
    exact mulPlane_mulSphere_value M (F.Plane s) S hM haff
  have hrad : (mulSphere M S).Radius = S.Radius := rfl
  refine ⟨?_, hval, hrad⟩
  have hiff : IntersectsSphere (mulFrustum M F) (mulSphere M S) = false ↔
      IntersectsSphere F S = false := by
    rw [IntersectsSphere_eq_false_iff_exists, IntersectsSphere_eq_false_iff_exists]
    simp only [hval, hrad]
  cases h1 : IntersectsSphere F S with
  | false => exact hiff.mpr h1
  | true =>
    cases h2 : IntersectsSphere (mulFrustum M F) (mulSphere M S) with
    | false => rw [hiff.mp h2] at h1; exact absurd h1 (by decide)
    | true => rfl

/-- C20 at the matrix `translateScale`, the frustum of the identity matrix and
the sphere of radius `1` centered at `(5, 0, 0)`. -/
theorem IntersectsSphere_mul_invariant_witness :
    Matrix.det translateScale ≠ 0 ∧
    (translateScale 3 0 = 0 ∧ translateScale 3 1 = 0 ∧ translateScale 3 2 = 0 ∧
      translateScale 3 3 = 1) ∧
    IntersectsSphere (mulFrustum translateScale (Frustum.ofMat4x4 Rat.sqrt unitOrthographic))
        (mulSphere translateScale (Sphere.ofCoords 5 0 0 1))
      = IntersectsSphere (Frustum.ofMat4x4 Rat.sqrt unitOrthographic)
          (Sphere.ofCoords 5 0 0 1) := by
  have hdet : Matrix.det translateScale ≠ 0 := by
    rw [translateScale_det]; norm_num
  have haff : translateScale 3 0 = 0 ∧ translateScale 3 1 = 0 ∧ translateScale 3 2 = 0 ∧
      translateScale 3 3 = 1 := by
    decide
  exact ⟨hdet, haff, (IntersectsSphere_mul_invariant translateScale _ _ hdet haff).1⟩

end Claims

end Math
end Hawk
